import Mathlib

/-!
Verification of the BATMAN API testing framework's contract-to-test pipeline.

The definitions below are a shallow embedding of the Python source under
`src/api_testing_framework/`.  Python dictionaries are embedded as ordered
association lists (Python dicts preserve insertion order), Python exceptions
as `Option`/`Except` failure, and Python truthiness by `pyTruthy`.
-/

namespace Batman

/-- JSON-like value, the shape of decoded OpenAPI documents and of the Python
values the framework manipulates.  Floats carry a rational (only exact literal
floats such as `42.0` occur in the source). -/
inductive JValue where
  | null
  | bool (b : Bool)
  | int (n : Int)
  | float (q : ℚ)
  | str (s : String)
  | arr (elems : List JValue)
  | obj (entries : List (String × JValue))

/-- Python `s.startswith(pre)`, over code points (the byte-indexed core
`String.startsWith` computes the same Bool but does not kernel-reduce). -/
def pyStartsWith (s pre : String) : Bool := pre.data.isPrefixOf s.data

/-- Python `s.endswith(suf)`, over code points. -/
def pyEndsWith (s suf : String) : Bool := suf.data.isSuffixOf s.data

/-- Python `c in s` for a single character, over code points. -/
def pyContainsChar (s : String) (c : Char) : Bool := s.data.contains c

/-- Python `s.lower()` to ASCII fidelity (the only names the framework
compares are ASCII). -/
def pyToLower (s : String) : String := String.mk (s.data.map Char.toLower)

/-- Python `s[n:]`, over code points. -/
def pyDrop (s : String) (n : Nat) : String := String.mk (s.data.drop n)

/-- Python `s.split(sep)` for a one-character separator: splitting the empty
string yields `[""]`, and separators at either end yield empty fields. -/
def splitOnChar (sep : Char) : List Char → List String
  | [] => [""]
  | c :: rest =>
    let r := splitOnChar sep rest
    if c = sep then "" :: r
    else
      match r with
      | [] => [String.mk [c]]
      | s :: ss => String.mk (c :: s.data) :: ss

/-- First-match association-list lookup; Python dict keys are unique, so this
is exactly `d[k]`-style lookup returning `none` for a missing key. -/
def jLookup : List (String × JValue) → String → Option JValue
  | [], _ => none
  | (k, v) :: rest, key => if k = key then some v else jLookup rest key

/-- Python truthiness of an embedded value (`bool(x)`). -/
def pyTruthy : JValue → Bool
  | .null => false
  | .bool b => b
  | .int n => n != 0
  | .float q => q != 0
  | .str s => s ≠ ""
  | .arr elems => !elems.isEmpty
  | .obj entries => !entries.isEmpty

/-- Python `x.get(k, d)` on an embedded value: `none` models the
`AttributeError` raised when `x` is not a dict. -/
def pyGetD : JValue → String → JValue → Option JValue
  | .obj entries, k, d => some ((jLookup entries k).getD d)
  | _, _, _ => none

/-- Python `x.get(k)` (default `None`): outer `none` models `AttributeError`
on a non-dict receiver, the inner option is Python `None` for a missing key. -/
def pyGet : JValue → String → Option (Option JValue)
  | .obj entries, k => some (jLookup entries k)
  | _, _ => none

/-- Python `repr` of an embedded value, to the fidelity the framework needs
(it only feeds values into f-string test-case names). -/
def pyRepr : JValue → String
  | .null => "None"
  | .bool true => "True"
  | .bool false => "False"
  | .int n => toString n
  | .float q => if q.den = 1 then toString q.num ++ ".0" else toString q
  | .str s => s
  | .arr elems => "[" ++ renderItems elems ++ "]"
  | .obj entries => "\x7b" ++ renderEntries entries ++ "\x7d"
where
  renderItems : List JValue → String
    | [] => ""
    | [v] => pyRepr v
    | v :: rest => pyRepr v ++ ", " ++ renderItems rest
  renderEntries : List (String × JValue) → String
    | [] => ""
    | [(k, v)] => k ++ ": " ++ pyRepr v
    | (k, v) :: rest => k ++ ": " ++ pyRepr v ++ ", " ++ renderEntries rest

/-- Python `str(x)` as used in f-strings: a string renders as itself,
other values via their repr. -/
def pyStr (v : JValue) : String :=
  match v with
  | .str s => s
  | _ => pyRepr v

/-- Numeric value of one decimal digit character. -/
def digitVal (c : Char) : Nat := c.toNat - 48

/-- Digits of a Python integer literal after the first digit: decimal digits,
an underscore legal only between two digits (`int("4_04") = 404`). -/
def digitsTail : List Char → Nat → Option Nat
  | [], acc => some acc
  | c :: rest, acc =>
    if c = '_' then
      match rest with
      | [] => none
      | c2 :: rest2 =>
        if c2.isDigit then digitsTail rest2 (10 * acc + digitVal c2) else none
    else if c.isDigit then digitsTail rest (10 * acc + digitVal c) else none

/-- A nonempty run of decimal digits (with legal underscores) read as a `Nat`. -/
def startDigits : List Char → Option Nat
  | [] => none
  | c :: rest => if c.isDigit then digitsTail rest (digitVal c) else none

/-- Characters of `s` with leading and trailing whitespace removed, as Python
`int` does before parsing. -/
def pyStripChars (s : String) : List Char :=
  ((s.data.dropWhile Char.isWhitespace).reverse.dropWhile Char.isWhitespace).reverse

/-- Python `int(s)` on a string: optional surrounding whitespace, optional
sign, then a nonempty digit run; `none` models the `ValueError` raised
otherwise (for instance on `"2XX"`). -/
def pyInt (s : String) : Option Int :=
  match pyStripChars s with
  | '+' :: rest => (startDigits rest).map Int.ofNat
  | '-' :: rest => (startDigits rest).map (fun n => -(n : Int))
  | cs => (startDigits cs).map Int.ofNat

/-- Endpoint record, from the `Endpoint` dataclass in `parser.py`.  The
response map is an ordered association list from status-code string to
response definition, matching the Python dict's insertion order. -/
structure Endpoint where
  path : String
  method : String
  operation_id : Option String
  summary : Option String
  description : Option String
  parameters : List JValue
  request_body : Option JValue
  responses : List (String × JValue)
  tags : List String
  security : List JValue

/-- Derived test case, the dict built by
`OpenAPIParser.get_endpoint_test_cases`. -/
structure TestCase where
  name : String
  method : String
  path : String
  expected_status : Int
  response_schema : Option JValue
  test_type : String

/-- Response-schema extraction
`response_def.get('content', {}).get('application/json', {}).get('schema')`:
outer `none` is a raised `AttributeError`, the inner option is Python `None`
when no schema is declared. -/
def respSchema (response_def : JValue) : Option (Option JValue) :=
  match pyGetD response_def "content" (.obj []) with
  | none => none
  | some content =>
    match pyGetD content "application/json" (.obj []) with
    | none => none
    | some media => pyGet media "schema"

/-- The first response-map entry whose status-code key starts with `"2"`, in
map iteration order: the `for ... break` scan of
`get_endpoint_test_cases`. -/
def findSuccess : List (String × JValue) → Option (String × JValue)
  | [] => none
  | (status_code, response_def) :: rest =>
    if pyStartsWith status_code "2" then some (status_code, response_def)
    else findSuccess rest

/-- Success branch of `get_endpoint_test_cases`: a single success case when
the first 2xx response definition is truthy, none otherwise; `none` models a
raised exception while building the case. -/
def successCases (ep : Endpoint) : Option (List TestCase) :=
  match findSuccess ep.responses with
  | none => some []
  | some (status_code, success_response) =>
    if pyTruthy success_response then
      match pyGetD success_response "description" (.str "success") with
      | none => none
      | some desc =>
        match pyInt status_code with
        | none => none
        | some n =>
          match respSchema success_response with
          | none => none
          | some schema? =>
            some [{ name := ep.method ++ " " ++ ep.path ++ " returns " ++
                      pyStr desc,
                    method := ep.method, path := ep.path, expected_status := n,
                    response_schema := schema?, test_type := "success" }]
    else some []

/-- Error branch of `get_endpoint_test_cases`: one error case per response
key starting with `"4"` or `"5"`, in map order. -/
def errorCases (ep : Endpoint) : List (String × JValue) → Option (List TestCase)
  | [] => some []
  | (status_code, response_def) :: rest =>
    if pyStartsWith status_code "4" || pyStartsWith status_code "5" then
      match pyInt status_code with
      | none => none
      | some n =>
        match respSchema response_def with
        | none => none
        | some schema? =>
          match errorCases ep rest with
          | some cases =>
            some ({ name := ep.method ++ " " ++ ep.path ++ " returns " ++
                      status_code,
                    method := ep.method, path := ep.path, expected_status := n,
                    response_schema := schema?, test_type := "error" } :: cases)
          | none => none
    else errorCases ep rest

/-- Embeds `OpenAPIParser.get_endpoint_test_cases` (parser.py lines 220-255):
the success case (if any) followed by the error cases; `none` models a raised
exception (notably `int()` on a non-numeric status key). -/
def get_endpoint_test_cases (ep : Endpoint) : Option (List TestCase) :=
  match successCases ep with
  | none => none
  | some succ =>
    match errorCases ep ep.responses with
    | some errs => some (succ ++ errs)
    | none => none

/-- Result of one test execution, from the `TestResult` dataclass in
`executor.py`.  Durations are wall-clock floats in the source; they are
embedded as rationals and threaded in as parameters. -/
structure TestResult where
  test_file : String
  success : Bool
  output : String
  duration : ℚ
  exit_code : Int
  error_message : Option String
  deriving DecidableEq

/-- Aggregated results, from the `ExecutionResults` dataclass in
`executor.py`. -/
structure ExecutionResults where
  total_tests : Nat
  passed_tests : Nat
  failed_tests : Nat
  total_duration : ℚ
  results : List TestResult
  success : Bool
  deriving DecidableEq

/-- Embeds the summary computation at the tail of `TestExecutor.run_tests`
(executor.py lines 76-87): `passed_tests = sum(1 for r in results if
r.success)`, `failed_tests = len(results) - passed_tests`,
`success = failed_tests == 0`. -/
def aggregate_results (results : List TestResult) (total_duration : ℚ) :
    ExecutionResults :=
  let passed_tests := results.countP (fun r => r.success)
  let failed_tests := results.length - passed_tests
  { total_tests := results.length
    passed_tests := passed_tests
    failed_tests := failed_tests
    total_duration := total_duration
    results := results
    success := failed_tests == 0 }

/-- A path names a `.bats` file (its final component matches the glob
`*.bats`). -/
def isBatsFile (p : String) : Bool := pyEndsWith p ".bats"

/-- A path is directly inside the output directory (no `/`), so the glob
`*.bats` can match it.  The recursive glob `**/*.bats` matches every `.bats`
path, these included, because `**` also matches zero directories. -/
def isTopLevelPath (p : String) : Bool := !(pyContainsChar p '/')

/-- Lexicographic order on code-point sequences, Python's `str` order. -/
def lexLe : List Char → List Char → Bool
  | [], _ => true
  | _ :: _, [] => false
  | a :: as, b :: bs => if a = b then lexLe as bs else decide (a.toNat < b.toNat)

/-- Python `a <= b` on strings: lexicographic by code point. -/
def pyStrLe (a b : String) : Bool := lexLe a.data b.data

/-- Stable insertion of a path into a sorted list, ordering by `pyStrLe`. -/
def insertSorted (a : String) : List String → List String
  | [] => [a]
  | b :: rest => if pyStrLe a b then a :: b :: rest else b :: insertSorted a rest

/-- Python `sorted` on a list of paths: a stable sort by lexicographic
order (any stable comparison sort computes the same list). -/
def pySorted (l : List String) : List String := l.foldr insertSorted []

/-- Embeds `TestExecutor._find_test_files` (executor.py lines 89-98) over the
inventory `files` of file paths under the output directory: the matches of
`output_dir.glob('*.bats')` extended with those of
`output_dir.glob('**/*.bats')`, then `sorted(...)`. -/
def find_test_files (files : List String) : List String :=
  pySorted ((files.filter (fun p => isBatsFile p && isTopLevelPath p)) ++
      files.filter isBatsFile)

/-- Embeds `TestExecutor._run_sequential_tests` (executor.py lines 129-140):
one `_run_single_test` invocation per discovered file, results appended in
that order (`run_one` stands for the single-test run). -/
def run_sequential_tests (run_one : String → TestResult)
    (test_files : List String) : List TestResult :=
  test_files.map run_one

/-- The synthetic result `_run_parallel_tests` builds when retrieving a
future's outcome raises (executor.py lines 163-173). -/
def syntheticErrorResult (test_file : String) (e : String) : TestResult :=
  { test_file := test_file, success := false, output := "", duration := 0,
    exit_code := 1, error_message := some e }

/-- Embeds the collection loop of `TestExecutor._run_parallel_tests`
(executor.py lines 142-175).  `outcomes` lists the submitted units in
completion order (`as_completed`), each paired with its file; `Except.error`
is an exception raised by `future.result()`, converted to a synthetic
failing result instead of aborting the batch. -/
def collect_parallel_results
    (outcomes : List (String × Except String TestResult)) : List TestResult :=
  outcomes.map (fun u =>
    match u.2 with
    | .ok r => r
    | .error e => syntheticErrorResult u.1 e)

/-- Outcome of the external `bats` process for one artifact: normal exit,
`subprocess.TimeoutExpired`, or another raised exception. -/
inductive RunOutcome where
  | completed (exit_code : Int) (stdout : String) (stderr : String)
  | timedOut
  | raised (msg : String)
  deriving DecidableEq

/-- Embeds `TestExecutor._run_single_test` (executor.py lines 236-289):
a missing runner raises `RuntimeError` (caught by the generic handler),
a normal exit maps to success iff the exit code is zero, a timeout maps to a
failing result with exit code 1 and the descriptive message
`f"Test timed out after {timeout} seconds"`. -/
def run_single_test (bats_available : Bool) (test_file : String)
    (timeout : Int) (dur : ℚ) (outcome : RunOutcome) : TestResult :=
  if bats_available then
    match outcome with
    | .completed code out err =>
      { test_file := test_file, success := code == 0, output := out,
        duration := dur, exit_code := code,
        error_message := if code != 0 then some err else none }
    | .timedOut =>
      { test_file := test_file, success := false, output := "",
        duration := dur, exit_code := 1,
        error_message :=
          some ("Test timed out after " ++ toString timeout ++ " seconds") }
    | .raised msg =>
      { test_file := test_file, success := false, output := "",
        duration := dur, exit_code := 1, error_message := some msg }
  else
    { test_file := test_file, success := false, output := "",
      duration := dur, exit_code := 1,
      error_message := some "BATS is not installed or not available in PATH" }

/-- Embeds `TestGenerator._filter_endpoints` (generator.py lines 52-60):
a truthy (non-empty) `include_only` keeps exactly the listed paths and
ignores `exclude`; otherwise a truthy `exclude` removes the listed paths. -/
def filter_endpoints (endpoints : List Endpoint) (exclude : List String)
    (include_only : List String) : List Endpoint :=
  if !include_only.isEmpty then
    endpoints.filter (fun ep => include_only.contains ep.path)
  else if !exclude.isEmpty then
    endpoints.filter (fun ep => !(exclude.contains ep.path))
  else
    endpoints

/-- Embeds the credentialed clone URL built by `OpenAPIParser._fetch_from_git`
(parser.py line 112):
`f"{parsed_url.scheme}://{token}@{parsed_url.netloc}{parsed_url.path}"`. -/
def buildRepoUrl (scheme token netloc path : String) : String :=
  scheme ++ "://" ++ token ++ "@" ++ netloc ++ path

/-- Embeds the error message raised by `OpenAPIParser._fetch_from_git` when
the clone fails (parser.py line 132): the caught `GitCommandError`'s text is
interpolated verbatim, with no redaction. -/
def cloneFailureMessage (e : String) : String :=
  "Failed to clone Git repository: " ++ e

/-- A value found by lookup is structurally smaller than the entry list. -/
theorem jLookup_sizeOf_lt {kvs : List (String × JValue)} {k : String}
    {v : JValue} (h : jLookup kvs k = some v) : sizeOf v < sizeOf kvs := by
  induction kvs with
  | nil => simp [jLookup] at h
  | cons hd tl ih =>
    obtain ⟨k1, v1⟩ := hd
    simp only [jLookup] at h
    split at h
    · cases h
      simp
      omega
    · have := ih h
      simp
      omega

/-- Python `str.title()` to the fidelity the framework needs (ASCII words):
an alphabetic character is uppercased after a non-letter and lowercased after
a letter. -/
def pyTitle (s : String) : String :=
  String.mk (go s.data false)
where
  go : List Char → Bool → List Char
    | [], _ => []
    | c :: rest, prevAlpha =>
      if c.isAlpha then
        (if prevAlpha then c.toLower else c.toUpper) :: go rest true
      else
        c :: go rest false

/-- Python `v == s` between an embedded value and a string literal: true
exactly when `v` is that string. -/
def isStrEq (v : JValue) (s : String) : Bool :=
  match v with
  | .str t => t == s
  | _ => false

/-- The name-driven default for a `string`-typed property in
`TemplateEngine._generate_test_data` (templates.py lines 60-68). -/
def stringFieldDefault (field_name : String) : String :=
  if ["email", "e-mail"].contains (pyToLower field_name) then "test@example.com"
  else if ["name", "title"].contains (pyToLower field_name) then
    "Test " ++ pyTitle field_name
  else if ["id", "uuid"].contains (pyToLower field_name) then "test-id-123"
  else "test_" ++ field_name

mutual

/-- Embeds `TemplateEngine._generate_test_data` (templates.py lines 48-80):
a falsy schema yields `{}`; otherwise the declared properties are walked in
order and each produces a value by its declared type; `none` models the
`AttributeError` raised when a schema or property schema is a truthy
non-dict. -/
def generate_test_data (schema : JValue) : Option JValue :=
  if pyTruthy schema then
    match schema with
    | .obj kvs =>
      match hp : jLookup kvs "properties" with
      | some (.obj props) =>
        match generate_fields props with
        | some fields => some (.obj fields)
        | none => none
      | some _ => none
      | none => some (.obj [])
    | _ => none
  else some (.obj [])
termination_by sizeOf schema
decreasing_by
  all_goals first
    | (have hlt := jLookup_sizeOf_lt hp
       simp at hlt ⊢
       omega)
    | (simp
       omega)

/-- The property loop of `TemplateEngine._generate_test_data`: one output
entry per property whose declared type (default `"string"`) is recognized,
in property order; type `object` recurses into the property's own schema. -/
def generate_fields : List (String × JValue) →
    Option (List (String × JValue))
  | [] => some []
  | (field_name, field_schema) :: rest =>
    match field_schema with
    | .obj fkvs =>
      let field_type := (jLookup fkvs "type").getD (.str "string")
      match generate_fields rest with
      | none => none
      | some tail =>
        if isStrEq field_type "string" then
          some ((field_name, .str (stringFieldDefault field_name)) :: tail)
        else if isStrEq field_type "integer" then
          some ((field_name, .int 42) :: tail)
        else if isStrEq field_type "number" then
          some ((field_name, .float 42) :: tail)
        else if isStrEq field_type "boolean" then
          some ((field_name, .bool true) :: tail)
        else if isStrEq field_type "array" then
          some ((field_name, .arr [.str "item1", .str "item2"]) :: tail)
        else if isStrEq field_type "object" then
          match generate_test_data (JValue.obj fkvs) with
          | some v => some ((field_name, v) :: tail)
          | none => none
        else some tail
    | _ => none
termination_by l => sizeOf l

end

/-- One step of the pointer walk of `OpenAPIParser.resolve_refs`
(parser.py lines 183-187): `resolved = resolved[part]` for each segment;
`none` models the `KeyError`/`TypeError` raised when a segment is absent or
the current value is not a dict. -/
def walkPointer : JValue → List String → Option JValue
  | v, [] => some v
  | v, part :: rest =>
    match v with
    | .obj kvs =>
      match jLookup kvs part with
      | some v2 => walkPointer v2 rest
      | none => none
    | _ => none

mutual

/-- Embeds the inner `resolve_ref` of `OpenAPIParser.resolve_refs`
(parser.py lines 175-198): a dict carrying `$ref` either resolves an
internal `#`-prefixed pointer against the document root or is returned
unchanged for an external reference; other dicts and lists are rebuilt with
resolved members. -/
def resolve_ref (root : JValue) : JValue → Option JValue
  | .obj kvs =>
    match jLookup kvs "$ref" with
    | some (.str ref_path) =>
      if pyStartsWith ref_path "#" then
        walkPointer root (splitOnChar '/' (pyDrop ref_path 2).data)
      else
        some (.obj kvs)
    | some _ => none
    | none =>
      match resolveEntries root kvs with
      | some entries => some (.obj entries)
      | none => none
  | .arr elems =>
    match resolveItems root elems with
    | some items => some (.arr items)
    | none => none
  | v => some v

/-- Dict-comprehension case of `resolve_ref`: resolve every value. -/
def resolveEntries (root : JValue) : List (String × JValue) →
    Option (List (String × JValue))
  | [] => some []
  | (k, v) :: rest =>
    match resolve_ref root v, resolveEntries root rest with
    | some v2, some rest2 => some ((k, v2) :: rest2)
    | _, _ => none

/-- List-comprehension case of `resolve_ref`: resolve every item. -/
def resolveItems (root : JValue) : List JValue → Option (List JValue)
  | [] => some []
  | v :: rest =>
    match resolve_ref root v, resolveItems root rest with
    | some v2, some rest2 => some (v2 :: rest2)
    | _, _ => none

end

/-- Embeds `OpenAPIParser.resolve_refs` (parser.py line 198):
`resolve_ref(spec, spec)`. -/
def resolve_refs (spec : JValue) : Option JValue := resolve_ref spec spec

/-- Restates the specification's resolution rule in its own words: walking
the pointer path segment by segment against the document root, every segment
present.  Compared against the source-derived `walkPointer`. -/
def specSegmentsPresent : JValue → List String → Bool
  | _, [] => true
  | v, part :: rest =>
    match v with
    | .obj kvs =>
      match jLookup kvs part with
      | some w => specSegmentsPresent w rest
      | none => false
    | _ => false

/-- C9: aggregation yields `total_tests` equal to the result-list length,
`passed_tests` the count of results with `success = true`,
`failed_tests = total - passed`, and the overall success flag true exactly
when `failed_tests = 0`. -/
theorem c9_aggregation (results : List TestResult) (total_duration : ℚ) :
    (aggregate_results results total_duration).total_tests = results.length ∧
    (aggregate_results results total_duration).passed_tests =
      results.countP (fun r => r.success) ∧
    (aggregate_results results total_duration).failed_tests =
      results.length - results.countP (fun r => r.success) ∧
    ((aggregate_results results total_duration).success = true ↔
      (aggregate_results results total_duration).failed_tests = 0) := by
  refine ⟨rfl, rfl, rfl, ?_⟩
  simp [aggregate_results]

/-- C4: a non-empty inclusion list keeps exactly the endpoints whose path is
listed and the exclusion list is ignored; an empty inclusion list keeps
exactly the endpoints whose path is not excluded. -/
theorem c4_endpoint_filtering (endpoints : List Endpoint)
    (exclude include_only : List String) :
    (include_only ≠ [] →
      filter_endpoints endpoints exclude include_only =
        endpoints.filter (fun ep => include_only.contains ep.path)) ∧
    (include_only = [] →
      filter_endpoints endpoints exclude include_only =
        endpoints.filter (fun ep => !(exclude.contains ep.path))) := by
  constructor
  · intro h
    simp [filter_endpoints, List.isEmpty_iff, h]
  · intro h
    subst h
    by_cases hx : exclude = []
    · subst hx
      simp [filter_endpoints]
    · simp [filter_endpoints, List.isEmpty_iff, hx]

/-- C7: collecting a bounded-parallel batch yields exactly one result per
submitted artifact (one per unit, in completion order), and a unit whose
outcome retrieval raised is converted to a synthetic failing result with
`success = false`, exit code 1 and the exception text as error message,
rather than aborting the batch. -/
theorem c7_parallel_collection_total (files : List String)
    (outcomes : List (String × Except String TestResult))
    (hperm : (outcomes.map Prod.fst).Perm files) :
    (collect_parallel_results outcomes).length = files.length ∧
    ∀ tf e, (tf, Except.error e) ∈ outcomes →
      syntheticErrorResult tf e ∈ collect_parallel_results outcomes := by
  constructor
  · simpa [collect_parallel_results] using hperm.length_eq
  · intro tf e hm
    exact List.mem_map_of_mem
      (fun u => match u.2 with
        | .ok r => r
        | .error e => syntheticErrorResult u.1 e) hm

/-- A successfully executed artifact, for the C7 witness batch. -/
def c7_ok_result : TestResult :=
  { test_file := "a.bats", success := true, output := "ok", duration := 1,
    exit_code := 0, error_message := none }

/-- A two-artifact completion sequence in which one unit's outcome retrieval
raised. -/
def c7_outcomes : List (String × Except String TestResult) :=
  [("b.bats", Except.error "boom"),
   ("a.bats", Except.ok c7_ok_result)]

/-- Witness for C7 at a concrete two-artifact batch. -/
theorem c7_parallel_collection_total_witness :
    ((c7_outcomes.map Prod.fst).Perm ["a.bats", "b.bats"]) ∧
    ((collect_parallel_results c7_outcomes).length = 2 ∧
      ∀ tf e, (tf, Except.error e) ∈ c7_outcomes →
        syntheticErrorResult tf e ∈ collect_parallel_results c7_outcomes) :=
  ⟨by decide,
    c7_parallel_collection_total ["a.bats", "b.bats"] c7_outcomes (by decide)⟩

/-- C8: over any artifact list, sequential execution yields one result per
artifact; an artifact whose run exceeded the timeout gets, at its own
position, a result with `success = false`, exit code 1 and the descriptive
timeout message, while every other artifact still produces its own result
(no retry occurs: the one run maps to the one recorded result). -/
theorem c8_timeout_result (files : List String) (timeout : Int)
    (dur : String → ℚ) (oc : String → RunOutcome) :
    (run_sequential_tests
        (fun tf => run_single_test true tf timeout (dur tf) (oc tf))
        files).length = files.length ∧
    ∀ (i : Nat) (tf : String), files[i]? = some tf → oc tf = .timedOut →
      (run_sequential_tests
          (fun tf => run_single_test true tf timeout (dur tf) (oc tf))
          files)[i]? =
        some ({ test_file := tf, success := false, output := "",
                duration := dur tf, exit_code := 1,
                error_message := some ("Test timed out after " ++
                  toString timeout ++ " seconds") } : TestResult) := by
  constructor
  · simp [run_sequential_tests]
  · intro i tf hi hoc
    simp [run_sequential_tests, List.getElem?_map, hi, run_single_test, hoc]

/-- The credential the C2 analysis threads through the fetch path. -/
def c2_token : String := "SECRET-TOKEN-123"

/-- The clone URL `_fetch_from_git` hands to the external clone when a token
is configured: the token is embedded as userinfo. -/
def c2_clone_url : String :=
  buildRepoUrl "https" c2_token "github.com" "/acme/private.git"

/-- A clone failure text that echoes the URL it was invoked with, as
`git clone` stderr does for a missing repository. -/
def c2_git_error_text : String :=
  "fatal: repository " ++ c2_clone_url ++ " not found"

/-- C2 is violated by the code: `_fetch_from_git` interpolates the caught
clone error verbatim into the raised message with no redaction step, so a
clone failure that echoes the credentialed URL puts the token into the
user-visible error message. -/
theorem c2_token_leak_on_clone_failure :
    c2_token.data <:+: (cloneFailureMessage c2_git_error_text).data :=
  ⟨("Failed to clone Git repository: fatal: repository https://").data,
   ("@github.com/acme/private.git not found").data, by rfl⟩

/-- An execution that always passes, for the C3 discovery analysis. -/
def c3_pass_result (p : String) : TestResult :=
  { test_file := p, success := true, output := "", duration := 0,
    exit_code := 0, error_message := none }

/-- C3 is violated by the code: `_find_test_files` extends the matches of
`*.bats` with those of `**/*.bats`, and the recursive pattern also matches
top-level files, so a top-level artifact is discovered twice and sequential
execution records two results for it (order is still the lexicographic
sort). -/
theorem c3_top_level_artifact_runs_twice :
    find_test_files ["a.bats", "sub/b.bats"] =
      ["a.bats", "a.bats", "sub/b.bats"] ∧
    (run_sequential_tests c3_pass_result
        (find_test_files ["a.bats", "sub/b.bats"])).length = 3 ∧
    ((run_sequential_tests c3_pass_result
        (find_test_files ["a.bats", "sub/b.bats"])).countP
        (fun r => r.test_file == "a.bats")) = 2 := by
  refine ⟨?_, ?_, ?_⟩ <;> rfl

/-- Every case the error scan produces is an error case, and the 4xx/5xx
status keys convert in order to the produced expected statuses. -/
theorem errorCases_spec (ep : Endpoint) :
    ∀ (rs : List (String × JValue)) (cases : List TestCase),
      errorCases ep rs = some cases →
      (∀ tc ∈ cases, tc.test_type = "error") ∧
      (rs.filter (fun p => pyStartsWith p.1 "4" || pyStartsWith p.1 "5")).map
          (fun p => pyInt p.1) =
        cases.map (fun tc => some tc.expected_status) := by
  intro rs
  induction rs with
  | nil =>
    intro cases h
    simp only [errorCases, Option.some.injEq] at h
    subst h
    simp
  | cons hd tl ih =>
    intro cases h
    obtain ⟨sc, rd⟩ := hd
    simp only [errorCases] at h
    by_cases h45 : (pyStartsWith sc "4" || pyStartsWith sc "5") = true
    · rw [if_pos h45] at h
      split at h
      · exact absurd h (by simp)
      next n hn =>
        split at h
        · exact absurd h (by simp)
        next schema? hschema =>
          split at h
          next tcs0 htl =>
            simp only [Option.some.injEq] at h
            subst h
            obtain ⟨ihm, ihmap⟩ := ih tcs0 htl
            constructor
            · intro tc htc
              rcases List.mem_cons.mp htc with heq | hmem
              · subst heq
                rfl
              · exact ihm tc hmem
            · simp [List.filter_cons, h45, hn, ihmap]
          next htl =>
            exact absurd h (by simp)
    · rw [if_neg h45] at h
      obtain ⟨ihm, ihmap⟩ := ih cases h
      refine ⟨ihm, ?_⟩
      have h45f : (pyStartsWith sc "4" || pyStartsWith sc "5") = false := by
        simpa using h45
      simp only [List.filter_cons, h45f, Bool.false_eq_true, if_false]
      exact ihmap

/-- A response scan over entries none of which has a 2xx key finds no
success entry. -/
theorem findSuccess_eq_none (rs : List (String × JValue))
    (h : ∀ p ∈ rs, pyStartsWith p.1 "2" = false) : findSuccess rs = none := by
  induction rs with
  | nil => rfl
  | cons hd tl ih =>
    obtain ⟨sc, rd⟩ := hd
    have h2 : pyStartsWith sc "2" = false := h (sc, rd) (by simp)
    simp only [findSuccess, h2, Bool.false_eq_true, if_false]
    exact ih fun p hp => h p (List.mem_cons_of_mem _ hp)

/-- The response scan returns the first entry whose key starts with "2". -/
theorem findSuccess_first (pre : List (String × JValue)) (sc : String)
    (rd : JValue) (post : List (String × JValue))
    (hpre : ∀ p ∈ pre, pyStartsWith p.1 "2" = false)
    (hsc : pyStartsWith sc "2" = true) :
    findSuccess (pre ++ (sc, rd) :: post) = some (sc, rd) := by
  induction pre with
  | nil => simp [findSuccess, hsc]
  | cons hd tl ih =>
    obtain ⟨k, v⟩ := hd
    have hk : pyStartsWith k "2" = false := hpre (k, v) (by simp)
    simp only [List.cons_append, findSuccess, hk, Bool.false_eq_true, if_false]
    exact ih fun p hp => hpre p (List.mem_cons_of_mem _ hp)

/-- When the first 2xx entry is truthy, the success branch yields exactly
one success case carrying that key's converted status. -/
theorem successCases_truthy (ep : Endpoint) (sc : String) (rd : JValue)
    (cases : List TestCase)
    (hf : findSuccess ep.responses = some (sc, rd)) (ht : pyTruthy rd = true)
    (hs : successCases ep = some cases) :
    ∃ n, pyInt sc = some n ∧
      ∃ tc, cases = [tc] ∧ tc.test_type = "success" ∧
        tc.expected_status = n := by
  simp only [successCases, hf, ht, if_true] at hs
  split at hs
  · exact absurd hs (by simp)
  next desc hdesc =>
    split at hs
    · exact absurd hs (by simp)
    next n hn =>
      split at hs
      · exact absurd hs (by simp)
      next schema? hschema =>
        simp only [Option.some.injEq] at hs
        subst hs
        exact ⟨n, hn, _, rfl, rfl, rfl⟩

/-- Derivation splits into the success branch's cases followed by the error
branch's cases. -/
theorem get_endpoint_test_cases_split (ep : Endpoint) (tcs : List TestCase)
    (h : get_endpoint_test_cases ep = some tcs) :
    ∃ succ errs, successCases ep = some succ ∧
      errorCases ep ep.responses = some errs ∧ tcs = succ ++ errs := by
  unfold get_endpoint_test_cases at h
  split at h
  · exact absurd h (by simp)
  next succ hsucc =>
    split at h
    next errs herrs =>
      simp only [Option.some.injEq] at h
      exact ⟨succ, errs, hsucc, herrs, h.symm⟩
    next herrs =>
      exact absurd h (by simp)

/-- C1 (amended): when derivation succeeds on an endpoint, it yields exactly
one success case if some response key starts with "2" and the first such
entry's response definition is truthy (the case bound to that first key's
numeric status), and no success case when no key starts with "2" or the
first 2xx definition is empty; exactly one error case per response key
starting with "4" or "5", statuses in map order; and nothing else. -/
theorem c1_test_case_derivation (ep : Endpoint) (tcs : List TestCase)
    (h : get_endpoint_test_cases ep = some tcs) :
    ((∀ p ∈ ep.responses, pyStartsWith p.1 "2" = false) →
      tcs.filter (fun tc => tc.test_type == "success") = []) ∧
    (∀ pre sc rd post, ep.responses = pre ++ (sc, rd) :: post →
      (∀ p ∈ pre, pyStartsWith p.1 "2" = false) →
      pyStartsWith sc "2" = true →
      ((pyTruthy rd = true →
        ∃ n, pyInt sc = some n ∧
          (tcs.filter (fun tc => tc.test_type == "success")).map
            (fun tc => tc.expected_status) = [n]) ∧
       (pyTruthy rd = false →
        tcs.filter (fun tc => tc.test_type == "success") = []))) ∧
    ((ep.responses.filter
        (fun p => pyStartsWith p.1 "4" || pyStartsWith p.1 "5")).map
        (fun p => pyInt p.1) =
      (tcs.filter (fun tc => tc.test_type == "error")).map
        (fun tc => some tc.expected_status)) ∧
    (∀ tc ∈ tcs, tc.test_type = "success" ∨ tc.test_type = "error") := by
  obtain ⟨succ, errs, hsucc, herrs, rfl⟩ :=
    get_endpoint_test_cases_split ep tcs h
  obtain ⟨herrmem, herrmap⟩ := errorCases_spec ep ep.responses errs herrs
  have herr_filter_succ :
      errs.filter (fun tc => tc.test_type == "success") = [] := by
    rw [List.filter_eq_nil_iff]
    intro tc htc
    simp [herrmem tc htc]
  have herr_filter_err :
      errs.filter (fun tc => tc.test_type == "error") = errs := by
    rw [List.filter_eq_self]
    intro tc htc
    simp [herrmem tc htc]
  have hsucc_shape : succ = [] ∨
      ∃ tc, succ = [tc] ∧ tc.test_type = "success" := by
    rcases hfs : findSuccess ep.responses with _ | ⟨sc, rd⟩
    · simp [successCases, hfs] at hsucc
      exact Or.inl hsucc
    · rcases htr : pyTruthy rd with _ | _
      · simp [successCases, hfs, htr] at hsucc
        exact Or.inl hsucc
      · obtain ⟨n, hn, tc0, hcs, htt, hst⟩ :=
          successCases_truthy ep sc rd succ hfs htr hsucc
        exact Or.inr ⟨tc0, hcs, htt⟩
  refine ⟨?_, ?_, ?_, ?_⟩
  · intro hno2
    have hf : findSuccess ep.responses = none := findSuccess_eq_none _ hno2
    simp [successCases, hf] at hsucc
    subst hsucc
    simp [List.filter_append, herr_filter_succ]
  · intro pre sc rd post hsplit hpre hsc
    have hf : findSuccess ep.responses = some (sc, rd) := by
      rw [hsplit]
      exact findSuccess_first pre sc rd post hpre hsc
    constructor
    · intro ht
      obtain ⟨n, hn, tc, hcs, htt, hst⟩ :=
        successCases_truthy ep sc rd succ hf ht hsucc
      refine ⟨n, hn, ?_⟩
      subst hcs
      simp [List.filter_append, herr_filter_succ, List.filter_cons, htt, hst]
    · intro ht
      simp [successCases, hf, ht] at hsucc
      subst hsucc
      simp [List.filter_append, herr_filter_succ]
  · have hsucc_filter_err :
        succ.filter (fun tc => tc.test_type == "error") = [] := by
      rw [List.filter_eq_nil_iff]
      intro tc htc
      rcases hsucc_shape with hnil | ⟨tc0, hcs, htt⟩
      · subst hnil
        simp at htc
      · subst hcs
        simp only [List.mem_singleton] at htc
        subst htc
        simp [htt]
    rw [List.filter_append, hsucc_filter_err, List.nil_append,
      herr_filter_err, herrmap]
  · intro tc htc
    rcases List.mem_append.mp htc with hmem | hmem
    · left
      rcases hsucc_shape with hnil | ⟨tc0, hcs, htt⟩
      · subst hnil
        simp at hmem
      · subst hcs
        simp only [List.mem_singleton] at hmem
        subst hmem
        exact htt
    · right
      exact herrmem tc hmem

/-- Endpoint whose single 2xx response definition is the empty dict. -/
def c1_endpoint : Endpoint :=
  { path := "/items", method := "GET", operation_id := none, summary := none,
    description := none, parameters := [], request_body := none,
    responses := [("200", .obj [])], tags := [], security := [] }

/-- C1 as frozen is false on the code: the endpoint `c1_endpoint` declares a
response key starting with "2", yet derivation produces no success case at
all, because the success branch tests the response definition for Python
truthiness and the empty dict is falsy. -/
theorem c1_counterexample :
    c1_endpoint.responses.countP (fun p => pyStartsWith p.1 "2") = 1 ∧
    get_endpoint_test_cases c1_endpoint = some [] := by
  constructor <;> rfl

/-- Endpoint with one truthy 2xx response and one 404 response. -/
def c1_witness_endpoint : Endpoint :=
  { path := "/items", method := "GET", operation_id := none, summary := none,
    description := none, parameters := [], request_body := none,
    responses := [("200", .obj [("description", .str "OK")]), ("404", .obj [])],
    tags := [], security := [] }

/-- The two cases derivation produces for `c1_witness_endpoint`. -/
def c1_witness_cases : List TestCase :=
  [{ name := "GET /items returns OK", method := "GET", path := "/items",
     expected_status := 200, response_schema := none, test_type := "success" },
   { name := "GET /items returns 404", method := "GET", path := "/items",
     expected_status := 404, response_schema := none, test_type := "error" }]

/-- Witness for C1's amended theorem at a concrete endpoint. -/
theorem c1_test_case_derivation_witness :
    get_endpoint_test_cases c1_witness_endpoint = some c1_witness_cases ∧
    (∀ tc ∈ c1_witness_cases,
      tc.test_type = "success" ∨ tc.test_type = "error") :=
  ⟨by rfl,
    (c1_test_case_derivation c1_witness_endpoint c1_witness_cases (by rfl)).2.2.2⟩

/-- The numeric value of a decimal digit string, read most significant digit
first — the spec-side reading of a status-code key. -/
def specDecimalValue (s : String) : Nat :=
  s.data.foldl (fun acc c => 10 * acc + digitVal c) 0

/-- A nonempty string of decimal digits. -/
def isDigitString (s : String) : Bool := s ≠ "" && s.data.all Char.isDigit

/-- A decimal digit is not whitespace. -/
theorem isDigit_not_whitespace (c : Char) (h : c.isDigit = true) :
    c.isWhitespace = false := by
  by_contra hw
  simp only [Bool.not_eq_false] at hw
  simp only [Char.isWhitespace, Bool.or_eq_true, decide_eq_true_eq] at hw
  rcases hw with ((h1 | h1) | h1) | h1 <;> subst h1 <;>
    exact absurd h (by decide)

/-- A decimal digit is neither a plus nor a minus sign. -/
theorem isDigit_not_sign (c : Char) (h : c.isDigit = true) :
    c ≠ '+' ∧ c ≠ '-' := by
  constructor <;> intro h1 <;> subst h1 <;> exact absurd h (by decide)

/-- Dropping by a predicate no element satisfies keeps a list intact. -/
theorem dropWhile_of_head_false (p : Char → Bool) (l : List Char)
    (h : ∀ c ∈ l, p c = false) : l.dropWhile p = l := by
  cases l with
  | nil => rfl
  | cons c rest => simp [List.dropWhile_cons, h c (by simp)]

/-- An all-digit string is untouched by the whitespace strip. -/
theorem pyStripChars_all_digits (s : String)
    (h : ∀ c ∈ s.data, c.isDigit = true) : pyStripChars s = s.data := by
  unfold pyStripChars
  rw [dropWhile_of_head_false _ _
    (fun c hc => isDigit_not_whitespace c (h c hc))]
  rw [dropWhile_of_head_false _ _
    (fun c hc => isDigit_not_whitespace c (h c (by simpa using hc)))]
  simp

/-- The digit-run reader computes the decimal value on all-digit input. -/
theorem digitsTail_all_digits :
    ∀ (cs : List Char) (acc : Nat), (∀ c ∈ cs, c.isDigit = true) →
      digitsTail cs acc =
        some (cs.foldl (fun a c => 10 * a + digitVal c) acc) := by
  intro cs
  induction cs with
  | nil =>
    intro acc h
    simp [digitsTail]
  | cons c rest ih =>
    intro acc h
    have hc : c.isDigit = true := h c (by simp)
    have hu : ¬(c = '_') := by
      intro heq
      subst heq
      exact absurd hc (by decide)
    rw [digitsTail.eq_def]
    simp only [if_neg hu, if_pos hc, List.foldl_cons]
    exact ih _ fun c2 hc2 => h c2 (List.mem_cons_of_mem _ hc2)

/-- Python `int` on a nonempty string of decimal digits succeeds with the
string's decimal value. -/
theorem pyInt_digit_string (s : String) (h : isDigitString s = true) :
    pyInt s = some (Int.ofNat (specDecimalValue s)) := by
  have hne : ¬(s = "") := by
    intro he
    subst he
    simp [isDigitString] at h
  have hall : ∀ c ∈ s.data, c.isDigit = true := by
    simp only [isDigitString, Bool.and_eq_true, List.all_eq_true,
      decide_eq_true_eq] at h
    exact h.2
  unfold pyInt
  rw [pyStripChars_all_digits s hall]
  rcases hd : s.data with _ | ⟨c, rest⟩
  · exact absurd (String.ext (hd.trans rfl)) hne
  · have hc : c.isDigit = true := hall c (by rw [hd]; simp)
    obtain ⟨hplus, hminus⟩ := isDigit_not_sign c hc
    have hrest : ∀ c2 ∈ rest, c2.isDigit = true := by
      intro c2 hc2
      exact hall c2 (by rw [hd]; exact List.mem_cons_of_mem _ hc2)
    split
    · next r heq =>
      injection heq with h1 h2
      exact absurd h1 hplus
    · next r heq =>
      injection heq with h1 h2
      exact absurd h1 hminus
    · next cs h1 h2 =>
      simp only [startDigits, hc, if_true]
      rw [digitsTail_all_digits rest (digitVal c) hrest]
      simp [specDecimalValue, hd]

/-- Endpoint whose 2xx response key is the OpenAPI range form "2XX": the
int conversion's error branch is reached and derivation has no result. -/
def c10_endpoint : Endpoint :=
  { path := "/items", method := "GET", operation_id := none, summary := none,
    description := none, parameters := [], request_body := none,
    responses := [("2XX", .obj [("description", .str "OK")])],
    tags := [], security := [] }

/-- C10: under the precondition that every response key starting with "2",
"4" or "5" is a string of decimal digits, every status conversion the
deriver performs succeeds and equals the numeric value of the key; for the
OpenAPI-legal range key "2XX" the conversion fails and derivation of
`c10_endpoint` has no result. -/
theorem c10_status_conversion (ep : Endpoint)
    (hkeys : ∀ p ∈ ep.responses,
      (pyStartsWith p.1 "2" || pyStartsWith p.1 "4" ||
        pyStartsWith p.1 "5") = true → isDigitString p.1 = true) :
    (∀ p ∈ ep.responses,
      (pyStartsWith p.1 "2" || pyStartsWith p.1 "4" ||
        pyStartsWith p.1 "5") = true →
      pyInt p.1 = some (Int.ofNat (specDecimalValue p.1))) ∧
    (pyInt "2XX" = none ∧ get_endpoint_test_cases c10_endpoint = none) := by
  refine ⟨?_, by rfl, by rfl⟩
  intro p hp hstart
  exact pyInt_digit_string p.1 (hkeys p hp hstart)

/-- Witness for C10 at a concrete endpoint with digit-string keys. -/
theorem c10_status_conversion_witness :
    (∀ p ∈ c1_witness_endpoint.responses,
      (pyStartsWith p.1 "2" || pyStartsWith p.1 "4" ||
        pyStartsWith p.1 "5") = true → isDigitString p.1 = true) ∧
    ((∀ p ∈ c1_witness_endpoint.responses,
      (pyStartsWith p.1 "2" || pyStartsWith p.1 "4" ||
        pyStartsWith p.1 "5") = true →
      pyInt p.1 = some (Int.ofNat (specDecimalValue p.1))) ∧
    (pyInt "2XX" = none ∧
      get_endpoint_test_cases c10_endpoint = none)) :=
  ⟨by decide, c10_status_conversion c1_witness_endpoint (by decide)⟩

/-- A document whose schema-components table lacks the referenced name
`Missing`, while another node references `#/components/schemas/Missing`. -/
def c6_missing_doc : JValue :=
  .obj [("components", .obj [("schemas",
            .obj [("Present", .obj [("type", .str "object")])])]),
        ("item", .obj [("$ref", .str "#/components/schemas/Missing")])]

/-- The pointer walk succeeds exactly when every segment is present. -/
theorem walkPointer_isSome_eq (parts : List String) :
    ∀ v : JValue,
      (walkPointer v parts).isSome = specSegmentsPresent v parts := by
  induction parts with
  | nil =>
    intro v
    rfl
  | cons p rest ih =>
    intro v
    cases v with
    | obj kvs =>
      rcases hl : jLookup kvs p with _ | w <;>
        simp [walkPointer, specSegmentsPresent, hl, ih]
    | null => rfl
    | bool b => rfl
    | int n => rfl
    | float q => rfl
    | str s => rfl
    | arr elems => rfl

/-- C6: a dict carrying an external (non-`#`) `$ref` is returned unchanged
rather than failing; one carrying an internal reference resolves by walking
the pointer segments against the document root, succeeding exactly when
every segment is present — an absent segment yields `none` (the raised
`UnresolvedReference`), never a silent empty schema; concretely, the
document referencing `#/components/schemas/Missing` fails to resolve. -/
theorem c6_reference_resolution (root : JValue)
    (kvs : List (String × JValue)) (r : String)
    (h : jLookup kvs "$ref" = some (.str r)) :
    (pyStartsWith r "#" = false →
      resolve_ref root (.obj kvs) = some (.obj kvs)) ∧
    (pyStartsWith r "#" = true →
      resolve_ref root (.obj kvs) =
        walkPointer root (splitOnChar '/' (pyDrop r 2).data) ∧
      (walkPointer root (splitOnChar '/' (pyDrop r 2).data)).isSome =
        specSegmentsPresent root (splitOnChar '/' (pyDrop r 2).data)) ∧
    resolve_refs c6_missing_doc = none := by
  refine ⟨?_, ?_, ?_⟩
  · intro hr
    rw [resolve_ref.eq_def]
    simp [h, hr]
  · intro hr
    refine ⟨?_, walkPointer_isSome_eq _ root⟩
    rw [resolve_ref.eq_def]
    simp [h, hr]
  · simp [resolve_refs, resolve_ref, resolveEntries, resolveItems,
      walkPointer, jLookup, splitOnChar, pyDrop, pyStartsWith,
      List.isPrefixOf, c6_missing_doc]

/-- Witness for C6 at the missing-reference node of `c6_missing_doc`. -/
theorem c6_reference_resolution_witness :
    jLookup [("$ref", JValue.str "#/components/schemas/Missing")] "$ref" =
      some (.str "#/components/schemas/Missing") ∧
    resolve_refs c6_missing_doc = none :=
  ⟨by rfl,
    (c6_reference_resolution c6_missing_doc
      [("$ref", JValue.str "#/components/schemas/Missing")]
      "#/components/schemas/Missing" (by rfl)).2.2⟩

/-- Python `==` against a string literal holds exactly for that string. -/
theorem isStrEq_eq_true_iff (v : JValue) (s : String) :
    isStrEq v s = true ↔ v = .str s := by
  cases v <;> simp [isStrEq]

/-- Each property a successful field walk consumes is mapped by its declared
type (default `"string"`): the recognized primitive types yield their fixed
placeholder values, and `object` yields a recursive synthesis of the
property's own schema. -/
theorem generate_fields_mem :
    ∀ (props out : List (String × JValue)),
      generate_fields props = some out →
      ∀ fn fs, (fn, fs) ∈ props → ∀ fkvs, fs = JValue.obj fkvs →
        ((jLookup fkvs "type").getD (.str "string") = .str "string" →
          (fn, .str (stringFieldDefault fn)) ∈ out) ∧
        ((jLookup fkvs "type").getD (.str "string") = .str "integer" →
          (fn, .int 42) ∈ out) ∧
        ((jLookup fkvs "type").getD (.str "string") = .str "number" →
          (fn, .float 42) ∈ out) ∧
        ((jLookup fkvs "type").getD (.str "string") = .str "boolean" →
          (fn, .bool true) ∈ out) ∧
        ((jLookup fkvs "type").getD (.str "string") = .str "array" →
          (fn, .arr [.str "item1", .str "item2"]) ∈ out) ∧
        ((jLookup fkvs "type").getD (.str "string") = .str "object" →
          ∃ v, generate_test_data (JValue.obj fkvs) = some v ∧
            (fn, v) ∈ out) := by
  intro props
  induction props with
  | nil =>
    intro out h fn fs hmem
    simp at hmem
  | cons hd rest ih =>
    intro out h fn fs hmem fkvs hfs
    subst hfs
    obtain ⟨gn, gs⟩ := hd
    rw [generate_fields.eq_def] at h
    simp only [] at h
    cases gs with
    | obj gkvs =>
      simp only [] at h
      split at h
      · exact absurd h (by simp)
      next tail htail =>
        split at h
        next hb1 =>
          have ht := (isStrEq_eq_true_iff _ _).mp hb1
          simp only [Option.some.injEq] at h
          subst h
          rcases List.mem_cons.mp hmem with heq | hmem2
          · rw [Prod.mk.injEq] at heq
            obtain ⟨rfl, hobj⟩ := heq
            have hk : fkvs = gkvs := by injection hobj
            subst hk
            refine ⟨?_, ?_, ?_, ?_, ?_, ?_⟩ <;> intro hype <;>
              first
                | exact List.mem_cons_self _ _
                | (rw [ht] at hype; simp at hype)
          · obtain ⟨i1, i2, i3, i4, i5, i6⟩ := ih tail htail fn _ hmem2 fkvs rfl
            exact ⟨fun hy => List.mem_cons_of_mem _ (i1 hy),
              fun hy => List.mem_cons_of_mem _ (i2 hy),
              fun hy => List.mem_cons_of_mem _ (i3 hy),
              fun hy => List.mem_cons_of_mem _ (i4 hy),
              fun hy => List.mem_cons_of_mem _ (i5 hy),
              fun hy => (i6 hy).imp fun v hv =>
                ⟨hv.1, List.mem_cons_of_mem _ hv.2⟩⟩
        next hb1 =>
          split at h
          next hb2 =>
            have ht := (isStrEq_eq_true_iff _ _).mp hb2
            simp only [Option.some.injEq] at h
            subst h
            rcases List.mem_cons.mp hmem with heq | hmem2
            · rw [Prod.mk.injEq] at heq
              obtain ⟨rfl, hobj⟩ := heq
              have hk : fkvs = gkvs := by injection hobj
              subst hk
              refine ⟨?_, ?_, ?_, ?_, ?_, ?_⟩ <;> intro hype <;>
                first
                  | exact List.mem_cons_self _ _
                  | (rw [ht] at hype; simp at hype)
            · obtain ⟨i1, i2, i3, i4, i5, i6⟩ :=
                ih tail htail fn _ hmem2 fkvs rfl
              exact ⟨fun hy => List.mem_cons_of_mem _ (i1 hy),
                fun hy => List.mem_cons_of_mem _ (i2 hy),
                fun hy => List.mem_cons_of_mem _ (i3 hy),
                fun hy => List.mem_cons_of_mem _ (i4 hy),
                fun hy => List.mem_cons_of_mem _ (i5 hy),
                fun hy => (i6 hy).imp fun v hv =>
                  ⟨hv.1, List.mem_cons_of_mem _ hv.2⟩⟩
          next hb2 =>
            split at h
            next hb3 =>
              have ht := (isStrEq_eq_true_iff _ _).mp hb3
              simp only [Option.some.injEq] at h
              subst h
              rcases List.mem_cons.mp hmem with heq | hmem2
              · rw [Prod.mk.injEq] at heq
                obtain ⟨rfl, hobj⟩ := heq
                have hk : fkvs = gkvs := by injection hobj
                subst hk
                refine ⟨?_, ?_, ?_, ?_, ?_, ?_⟩ <;> intro hype <;>
                  first
                    | exact List.mem_cons_self _ _
                    | (rw [ht] at hype; simp at hype)
              · obtain ⟨i1, i2, i3, i4, i5, i6⟩ :=
                  ih tail htail fn _ hmem2 fkvs rfl
                exact ⟨fun hy => List.mem_cons_of_mem _ (i1 hy),
                  fun hy => List.mem_cons_of_mem _ (i2 hy),
                  fun hy => List.mem_cons_of_mem _ (i3 hy),
                  fun hy => List.mem_cons_of_mem _ (i4 hy),
                  fun hy => List.mem_cons_of_mem _ (i5 hy),
                  fun hy => (i6 hy).imp fun v hv =>
                    ⟨hv.1, List.mem_cons_of_mem _ hv.2⟩⟩
            next hb3 =>
              split at h
              next hb4 =>
                have ht := (isStrEq_eq_true_iff _ _).mp hb4
                simp only [Option.some.injEq] at h
                subst h
                rcases List.mem_cons.mp hmem with heq | hmem2
                · rw [Prod.mk.injEq] at heq
                  obtain ⟨rfl, hobj⟩ := heq
                  have hk : fkvs = gkvs := by injection hobj
                  subst hk
                  refine ⟨?_, ?_, ?_, ?_, ?_, ?_⟩ <;> intro hype <;>
                    first
                      | exact List.mem_cons_self _ _
                      | (rw [ht] at hype; simp at hype)
                · obtain ⟨i1, i2, i3, i4, i5, i6⟩ :=
                    ih tail htail fn _ hmem2 fkvs rfl
                  exact ⟨fun hy => List.mem_cons_of_mem _ (i1 hy),
                    fun hy => List.mem_cons_of_mem _ (i2 hy),
                    fun hy => List.mem_cons_of_mem _ (i3 hy),
                    fun hy => List.mem_cons_of_mem _ (i4 hy),
                    fun hy => List.mem_cons_of_mem _ (i5 hy),
                    fun hy => (i6 hy).imp fun v hv =>
                      ⟨hv.1, List.mem_cons_of_mem _ hv.2⟩⟩
              next hb4 =>
                split at h
                next hb5 =>
                  have ht := (isStrEq_eq_true_iff _ _).mp hb5
                  simp only [Option.some.injEq] at h
                  subst h
                  rcases List.mem_cons.mp hmem with heq | hmem2
                  · rw [Prod.mk.injEq] at heq
                    obtain ⟨rfl, hobj⟩ := heq
                    have hk : fkvs = gkvs := by injection hobj
                    subst hk
                    refine ⟨?_, ?_, ?_, ?_, ?_, ?_⟩ <;> intro hype <;>
                      first
                        | exact List.mem_cons_self _ _
                        | (rw [ht] at hype; simp at hype)
                  · obtain ⟨i1, i2, i3, i4, i5, i6⟩ :=
                      ih tail htail fn _ hmem2 fkvs rfl
                    exact ⟨fun hy => List.mem_cons_of_mem _ (i1 hy),
                      fun hy => List.mem_cons_of_mem _ (i2 hy),
                      fun hy => List.mem_cons_of_mem _ (i3 hy),
                      fun hy => List.mem_cons_of_mem _ (i4 hy),
                      fun hy => List.mem_cons_of_mem _ (i5 hy),
                      fun hy => (i6 hy).imp fun v hv =>
                        ⟨hv.1, List.mem_cons_of_mem _ hv.2⟩⟩
                next hb5 =>
                  split at h
                  next hb6 =>
                    have ht := (isStrEq_eq_true_iff _ _).mp hb6
                    split at h
                    next v hv =>
                      simp only [Option.some.injEq] at h
                      subst h
                      rcases List.mem_cons.mp hmem with heq | hmem2
                      · rw [Prod.mk.injEq] at heq
                        obtain ⟨rfl, hobj⟩ := heq
                        have hk : fkvs = gkvs := by injection hobj
                        subst hk
                        refine ⟨?_, ?_, ?_, ?_, ?_, ?_⟩ <;> intro hype <;>
                          first
                            | exact ⟨v, hv, List.mem_cons_self _ _⟩
                            | (rw [ht] at hype; simp at hype)
                      · obtain ⟨i1, i2, i3, i4, i5, i6⟩ :=
                          ih tail htail fn _ hmem2 fkvs rfl
                        exact ⟨fun hy => List.mem_cons_of_mem _ (i1 hy),
                          fun hy => List.mem_cons_of_mem _ (i2 hy),
                          fun hy => List.mem_cons_of_mem _ (i3 hy),
                          fun hy => List.mem_cons_of_mem _ (i4 hy),
                          fun hy => List.mem_cons_of_mem _ (i5 hy),
                          fun hy => (i6 hy).imp fun w hw =>
                            ⟨hw.1, List.mem_cons_of_mem _ hw.2⟩⟩
                    next hv =>
                      exact absurd h (by simp)
                  next hb6 =>
                    simp only [Option.some.injEq] at h
                    subst h
                    rcases List.mem_cons.mp hmem with heq | hmem2
                    · rw [Prod.mk.injEq] at heq
                      obtain ⟨rfl, hobj⟩ := heq
                      have hk : fkvs = gkvs := by injection hobj
                      subst hk
                      refine ⟨?_, ?_, ?_, ?_, ?_, ?_⟩ <;> intro hype <;>
                        rw [hype] at hb1 hb2 hb3 hb4 hb5 hb6 <;>
                        simp [isStrEq] at hb1 hb2 hb3 hb4 hb5 hb6
                    · exact ih tail htail fn _ hmem2 fkvs rfl
    | null => exact absurd h (by simp)
    | bool b => exact absurd h (by simp)
    | int n => exact absurd h (by simp)
    | float q => exact absurd h (by simp)
    | str t => exact absurd h (by simp)
    | arr elems => exact absurd h (by simp)

/-- The entries of the specification's example schema
`{"type": "object", "properties": {"email": {"type": "string"}}}`. -/
def c5_example_entries : List (String × JValue) :=
  [("type", .str "object"),
   ("properties", .obj [("email", .obj [("type", .str "string")])])]

/-- The specification's example schema as a value. -/
def c5_example_schema : JValue := .obj c5_example_entries

/-- A truthy dict schema with a `properties` table synthesizes exactly via
the field walk over that table. -/
theorem generate_test_data_obj (kvs props fields : List (String × JValue))
    (hp : jLookup kvs "properties" = some (.obj props))
    (h : generate_test_data (.obj kvs) = some (.obj fields)) :
    generate_fields props = some fields := by
  have hkne : kvs ≠ [] := by
    intro he
    subst he
    simp [jLookup] at hp
  have htr : pyTruthy (.obj kvs) = true := by
    simpa [pyTruthy, List.isEmpty_iff] using hkne
  rw [generate_test_data.eq_def] at h
  rw [if_pos htr] at h
  simp only [] at h
  rw [hp] at h
  simp only [] at h
  split at h
  next fields0 hf =>
    simp only [Option.some.injEq, JValue.obj.injEq] at h
    subst h
    exact hf
  next hf =>
    exact absurd h (by simp)

/-- C5: test-data synthesis maps each declared property by its type — string
properties get the name-driven default (email-like names the literal email,
name/title-like names the titled placeholder, id/uuid-like names the fixed
placeholder id, anything else `test_<field>`), integer yields 42, number
yields 42.0, boolean yields true, array yields the two-element placeholder
sequence, and object recurses into the property's own properties; in
particular the example schema synthesizes to
`{"email": "test@example.com"}`. -/
theorem c5_test_data_synthesis (kvs props fields : List (String × JValue))
    (hp : jLookup kvs "properties" = some (.obj props))
    (h : generate_test_data (.obj kvs) = some (.obj fields)) :
    (∀ fn fs, (fn, fs) ∈ props → ∀ fkvs, fs = JValue.obj fkvs →
      ((jLookup fkvs "type").getD (.str "string") = .str "string" →
        (fn, .str (stringFieldDefault fn)) ∈ fields) ∧
      ((jLookup fkvs "type").getD (.str "string") = .str "integer" →
        (fn, .int 42) ∈ fields) ∧
      ((jLookup fkvs "type").getD (.str "string") = .str "number" →
        (fn, .float 42) ∈ fields) ∧
      ((jLookup fkvs "type").getD (.str "string") = .str "boolean" →
        (fn, .bool true) ∈ fields) ∧
      ((jLookup fkvs "type").getD (.str "string") = .str "array" →
        (fn, .arr [.str "item1", .str "item2"]) ∈ fields) ∧
      ((jLookup fkvs "type").getD (.str "string") = .str "object" →
        ∃ v, generate_test_data (JValue.obj fkvs) = some v ∧
          (fn, v) ∈ fields)) ∧
    (∀ fn, ["email", "e-mail"].contains (pyToLower fn) = true →
      stringFieldDefault fn = "test@example.com") ∧
    (∀ fn, ["email", "e-mail"].contains (pyToLower fn) = false →
      ["name", "title"].contains (pyToLower fn) = true →
      stringFieldDefault fn = "Test " ++ pyTitle fn) ∧
    (∀ fn, ["email", "e-mail"].contains (pyToLower fn) = false →
      ["name", "title"].contains (pyToLower fn) = false →
      ["id", "uuid"].contains (pyToLower fn) = true →
      stringFieldDefault fn = "test-id-123") ∧
    (∀ fn, ["email", "e-mail"].contains (pyToLower fn) = false →
      ["name", "title"].contains (pyToLower fn) = false →
      ["id", "uuid"].contains (pyToLower fn) = false →
      stringFieldDefault fn = "test_" ++ fn) ∧
    generate_test_data c5_example_schema =
      some (.obj [("email", .str "test@example.com")]) := by
  refine ⟨fun fn fs hm fkvs hfs =>
    generate_fields_mem props fields
      (generate_test_data_obj kvs props fields hp h) fn fs hm fkvs hfs,
    ?_, ?_, ?_, ?_, ?_⟩
  · intro fn h1
    have h1a : pyToLower fn = "email" ∨ pyToLower fn = "e-mail" := by
      simpa using h1
    simp [stringFieldDefault, h1a]
  · intro fn h1 h2
    have h1a : pyToLower fn ≠ "email" ∧ pyToLower fn ≠ "e-mail" := by
      simpa [not_or] using h1
    have h2a : pyToLower fn = "name" ∨ pyToLower fn = "title" := by
      simpa using h2
    simp [stringFieldDefault, h1a.1, h1a.2, h2a]
  · intro fn h1 h2 h3
    have h1a : pyToLower fn ≠ "email" ∧ pyToLower fn ≠ "e-mail" := by
      simpa [not_or] using h1
    have h2a : pyToLower fn ≠ "name" ∧ pyToLower fn ≠ "title" := by
      simpa [not_or] using h2
    have h3a : pyToLower fn = "id" ∨ pyToLower fn = "uuid" := by
      simpa using h3
    simp [stringFieldDefault, h1a.1, h1a.2, h2a.1, h2a.2, h3a]
  · intro fn h1 h2 h3
    have h1a : pyToLower fn ≠ "email" ∧ pyToLower fn ≠ "e-mail" := by
      simpa [not_or] using h1
    have h2a : pyToLower fn ≠ "name" ∧ pyToLower fn ≠ "title" := by
      simpa [not_or] using h2
    have h3a : pyToLower fn ≠ "id" ∧ pyToLower fn ≠ "uuid" := by
      simpa [not_or] using h3
    simp [stringFieldDefault, h1a.1, h1a.2, h2a.1, h2a.2, h3a.1, h3a.2]
  · simp [c5_example_schema, c5_example_entries, generate_test_data,
      generate_fields, jLookup, pyTruthy, isStrEq, stringFieldDefault,
      pyToLower, List.contains_cons]

/-- Witness for C5 at the specification's example schema. -/
theorem c5_test_data_synthesis_witness :
    jLookup c5_example_entries "properties" =
      some (.obj [("email", .obj [("type", .str "string")])]) ∧
    generate_test_data (.obj c5_example_entries) =
      some (.obj [("email", .str "test@example.com")]) ∧
    stringFieldDefault "email" = "test@example.com" :=
  ⟨by rfl,
   by simp [c5_example_entries, generate_test_data, generate_fields, jLookup,
        pyTruthy, isStrEq, stringFieldDefault, pyToLower, List.contains_cons],
   (c5_test_data_synthesis c5_example_entries
      [("email", .obj [("type", .str "string")])]
      [("email", .str "test@example.com")] (by rfl)
      (by simp [c5_example_entries, generate_test_data, generate_fields,
        jLookup, pyTruthy, isStrEq, stringFieldDefault, pyToLower,
        List.contains_cons])).2.1 "email" (by rfl)⟩

end Batman
